import Mathlib

/-!
Verification of the Flood-Induced-Population-Displacement repository.

This file gives a shallow embedding, in Lean 4, of the data transformations of
the repository (statistics aggregation, config-file generation, edge
construction, download-task generation) and proves the spec's claims about
them.  Python floats are modelled as exact rationals (with real-valued square
roots), Python ints as `Int`, pandas tables as lists of named columns, and
fallible code (division by zero) through `Except`.
-/

/-! ## Basic helpers: substring search, lowercasing, rounding, truncation -/

/-- `needle` occurs as a contiguous substring of `haystack` (Python's `in`
operator on strings, over the character lists). -/
def containsSubList (haystack needle : List Char) : Bool :=
  (List.range (haystack.length + 1)).any fun i => needle.isPrefixOf (haystack.drop i)

/-- Python's `needle in haystack` for strings. -/
def strContains (haystack needle : String) : Bool :=
  containsSubList haystack.data needle.data

/-- Python's `str.lower()` (pandas `.str.lower()`): lowercase every character. -/
def pyLower (s : String) : String :=
  ⟨s.data.map Char.toLower⟩

/-- Round-half-to-even on rationals (numpy/pandas `round` tie behaviour). -/
def rintQ (q : ℚ) : ℤ :=
  let f : ℤ := ⌊q⌋
  if q - f < 1/2 then f
  else if 1/2 < q - f then f + 1
  else if Even f then f else f + 1

/-- `round(q, d)` on rationals: round-half-to-even at `d` decimal places. -/
def roundQ (d : ℕ) (q : ℚ) : ℚ :=
  (rintQ (q * 10 ^ d) : ℚ) / 10 ^ d

/-- Round-half-to-even on reals. -/
noncomputable def rintR (x : ℝ) : ℤ :=
  let f : ℤ := ⌊x⌋
  if x - f < 1/2 then f
  else if 1/2 < x - f then f + 1
  else if Even f then f else f + 1

/-- `round(x, d)` on reals: round-half-to-even at `d` decimal places. -/
noncomputable def roundR (d : ℕ) (x : ℝ) : ℝ :=
  (rintR (x * 10 ^ d) : ℝ) / 10 ^ d

/-- Python's `int(q)` on a float value: truncation toward zero. -/
def int_trunc (q : ℚ) : ℤ :=
  if 0 ≤ q then ⌊q⌋ else ⌈q⌉

/-- Square root of a float, `NaN` modelled as `none`: `x ** 0.5` is `NaN`
exactly when `x < 0`. -/
noncomputable def fsqrt (q : ℚ) : Option ℝ :=
  if q < 0 then none else some (Real.sqrt (q : ℝ))

/-! ## `download_data.generate_download_tasks`

Dates are modelled at day granularity as integers (`current_date + timedelta(days=1)`
becomes `+ 1`); `strftime` is an opaque formatting parameter `fmtDate`, and
`str.format` with two `\x7b\x7d` placeholders is `pyFormat2`. -/

/-- `template.format(a, b)`: replace the first two placeholder occurrences by
`a` and `b`. -/
def pyFormat2 (template a b : String) : String :=
  match template.splitOn "\x7b\x7d" with
  | [] => template
  | [p] => p
  | [p, q] => p ++ a ++ q
  | p :: q :: r :: rest => p ++ a ++ q ++ b ++ String.intercalate "\x7b\x7d" (r :: rest)

/-- One `(image_url, filename)` pair of `generate_download_tasks`. -/
def downloadTask (fmtDate : ℤ → String) (date : ℤ) (page : ℤ) (url_format : String) :
    String × String :=
  (pyFormat2 url_format (fmtDate date) (toString page),
   "Waterlevel_Forecast_" ++ fmtDate date ++ "_Page_" ++ toString page ++ ".png")

/-- `generate_download_tasks`: the `while current_date <= end_date` loop, with
the nested `for page in pages: for url_format in url_formats` body. -/
def generate_download_tasks (fmtDate : ℤ → String) (start_date end_date : ℤ)
    (pages : List ℤ) (url_formats : List String) : List (String × String) :=
  if start_date ≤ end_date then
    (pages.flatMap fun page => url_formats.map fun u => downloadTask fmtDate start_date page u)
      ++ generate_download_tasks fmtDate (start_date + 1) end_date pages url_formats
  else []
termination_by (end_date + 1 - start_date).toNat
decreasing_by omega

/-- The inclusive day range `[start, start+1, …, end]`. -/
def dateRange (start_date end_date : ℤ) : List ℤ :=
  (List.range (end_date + 1 - start_date).toNat).map fun (i : ℕ) => start_date + (i : ℤ)

/-! ## `plot_maps.create_edges_gdf` / `plot_route.create_edges_gdf`

The location dictionary is an association list from location names to
coordinates; an edge row holds two location names.  The list comprehension
keeps a line exactly when both names are keys of the dictionary. -/

/-- `create_edges_gdf`: one line per edge whose two endpoints are both present
in `location_dict`; other edges contribute nothing. -/
def create_edges_gdf (location_dict : List (String × ℚ × ℚ))
    (edges_df : List (String × String)) : List ((ℚ × ℚ) × (ℚ × ℚ)) :=
  edges_df.filterMap fun row =>
    match location_dict.lookup row.1, location_dict.lookup row.2 with
    | some p, some q => some (p, q)
    | _, _ => none

/-! ## `create_config_files.create_flood_level_csv`

The input dataframe is modelled by its rows: one `(Date, Water Level
Classification)` pair per day.  The output table holds the `#Day` column
(`np.arange(len(days))`) and one adjusted-level column per registry location,
in registry order. -/

/-- The flood-level table written by `create_flood_level_csv`. -/
structure FloodTable where
  dayCol : List ℕ
  cols : List (String × List ℤ)
deriving DecidableEq

/-- The loop body of `create_flood_level_csv`: the `adjusted_level` list for
one registry location. -/
def floodColumn (flood_level : List ℤ) (day_count : ℕ) (loc : String) : List ℤ :=
  let location := pyLower loc
  if strContains location "temple" then
    List.replicate day_count 0
  else if strContains location "camp" then
    flood_level.map fun level => max 0 (level - 2)
  else if strContains location "town" then
    flood_level.map fun level => max 0 (level - 1)
  else
    flood_level

/-- `create_flood_level_csv`, with the location registry's `#name` column as
`locations_list` and the water-level dataframe as its list of
`(Date, Water Level Classification)` rows. -/
def create_flood_level_csv (locations_list : List String)
    (df : List (String × ℤ)) : FloodTable :=
  let days := df.map Prod.fst
  let day_list := List.range days.length
  let flood_level := df.map Prod.snd
  ⟨day_list, locations_list.map fun loc => (loc, floodColumn flood_level day_list.length loc)⟩

/-- Entry of the flood-level table for location column `j` on day `k`. -/
def floodEntryAt (t : FloodTable) (j k : ℕ) : ℤ :=
  ((t.cols.getD j ("", [])).2).getD k 0

/-! ## `create_config_files.create_source_data_files` and its helpers

Python ints are `Int`, floats are `ℚ`; `int(...)` is `int_trunc`.  A
`ZeroDivisionError` (raised when a location category is empty) is the
`Except.error` case. -/

/-- The one runtime error the generator can raise. -/
inductive PyError where
  | zeroDivision
deriving DecidableEq

/-- Result tuple of `_create_camp_and_floodzone_locations`. -/
structure CampFloodzoneData where
  camp_locations : List String
  temple_locations : List String
  floodzone_locations : List String
  displacement_camp : ℤ
  displacement_temple : ℤ
  floodzone_population : ℤ
deriving DecidableEq

/-- `_create_camp_and_floodzone_locations`: partition the registry names by
substring, then derive per-location displacement figures.  Each division is by
the length of a category list and raises `ZeroDivisionError` when that list is
empty, in the evaluation order of the source (camps, then temples, then flood
zones). -/
def _create_camp_and_floodzone_locations (locations_list : List String)
    (displacement : ℤ) (fraction_displaced_camp : ℚ) (population : ℤ) :
    Except PyError CampFloodzoneData :=
  let camp_locations := locations_list.filter fun l => strContains (pyLower l) "camp"
  let temple_locations := locations_list.filter fun l => strContains (pyLower l) "temple"
  let floodzone_locations := locations_list.filter fun l => strContains (pyLower l) "flood_zone"
  if camp_locations.length = 0 then .error .zeroDivision
  else if temple_locations.length = 0 then .error .zeroDivision
  else if floodzone_locations.length = 0 then .error .zeroDivision
  else
    .ok { camp_locations := camp_locations
          temple_locations := temple_locations
          floodzone_locations := floodzone_locations
          displacement_camp :=
            int_trunc ((displacement * fraction_displaced_camp) / camp_locations.length)
          displacement_temple :=
            int_trunc ((displacement * (1 - fraction_displaced_camp)) / temple_locations.length)
          floodzone_population :=
            int_trunc ((population : ℚ) / floodzone_locations.length) }

/-- One per-location source-data CSV: the location (file) name and the three
`(#Day, Displacement)` template rows. -/
structure SourceFile where
  name : String
  rows : List (String × ℤ)
deriving DecidableEq

/-- `template_df.loc[i, "Displacement"] = v`: update row `i`'s displacement,
keeping its date. -/
def setDisp (rows : List (String × ℤ)) (i : ℕ) (v : ℤ) : List (String × ℤ) :=
  rows.set i ((rows.getD i ("", 0)).1, v)

/-- The loop body of `_create_source_data_files_for_locations`: the source-data
file for one location, starting from the fixed three-row template and applying
the camp, temple, and flood-zone branches in source order. -/
def sourceFileFor (displacement_camp displacement_temple floodzone_population : ℤ)
    (fraction_stays_in_camp : ℚ) (flood_displacement : Bool)
    (location : String) : SourceFile :=
  let template₀ : List (String × ℤ) :=
    [("2024-09-08", 0), ("2024-09-14", 0), ("2024-09-30", 0)]
  let template₁ :=
    if strContains (pyLower location) "camp" then
      setDisp (setDisp template₀ 1 displacement_camp) 2
        (int_trunc ((displacement_camp : ℚ) * fraction_stays_in_camp))
    else template₀
  let template₂ :=
    if strContains (pyLower location) "temple" then
      setDisp (setDisp template₁ 1 displacement_temple) 2
        (int_trunc ((displacement_temple : ℚ) * fraction_stays_in_camp))
    else template₁
  let template₃ :=
    if strContains (pyLower location) "flood_zone" && flood_displacement then
      setDisp (setDisp (setDisp template₂ 0 floodzone_population) 1
        (int_trunc ((floodzone_population : ℚ) * 0.4))) 2
        (int_trunc ((floodzone_population : ℚ) * 0.1))
    else template₂
  ⟨location, template₃⟩

/-- `_create_source_data_files_for_locations`: one file per location in the
given list. -/
def _create_source_data_files_for_locations (locations_list : List String)
    (displacement_camp displacement_temple floodzone_population : ℤ)
    (fraction_stays_in_camp : ℚ) (flood_displacement : Bool) : List SourceFile :=
  locations_list.map
    (sourceFileFor displacement_camp displacement_temple floodzone_population
      fraction_stays_in_camp flood_displacement)

/-- The `refugees.csv` row written by `_create_refugee_csv`; the date carries
the zero-padded day (`f"2024-09-\x7bday:02d\x7d"`). -/
def _create_refugee_csv (day : ℕ) (refugee_numbers : ℤ) : List (String × ℤ) :=
  [("2024-09-" ++ (if day < 10 then "0" else "") ++ toString day, refugee_numbers)]

/-- Equality of `Except` results is decidable when both components' is. -/
instance exceptDecEq {e a : Type} [DecidableEq e] [DecidableEq a] :
    DecidableEq (Except e a)
  | .error x, .error y =>
    if h : x = y then .isTrue (by rw [h]) else .isFalse fun hh => h (by injection hh)
  | .error _, .ok _ => .isFalse fun hh => Except.noConfusion hh
  | .ok _, .error _ => .isFalse fun hh => Except.noConfusion hh
  | .ok x, .ok y =>
    if h : x = y then .isTrue (by rw [h]) else .isFalse fun hh => h (by injection hh)

/-- Everything `create_source_data_files` writes under `source_data/`. -/
structure SourceDataOutput where
  location_files : List SourceFile
  refugee_rows : List (String × ℤ)
deriving DecidableEq

/-- `create_source_data_files`: derive the camp/temple/flood-zone data, then
write per-location files for the camp locations only, then `refugees.csv`.
Errors from the derivation propagate unhandled. -/
def create_source_data_files (locations_list : List String) (population : ℤ)
    (displacement : ℤ) (fraction_displaced_camp : ℚ) (fraction_stays_in_camp : ℚ)
    (flood_displacement : Bool) (day : ℕ) : Except PyError SourceDataOutput :=
  match _create_camp_and_floodzone_locations locations_list displacement
      fraction_displaced_camp population with
  | .error e => .error e
  | .ok data =>
    .ok ⟨_create_source_data_files_for_locations data.camp_locations
          data.displacement_camp data.displacement_temple data.floodzone_population
          fraction_stays_in_camp flood_displacement,
        _create_refugee_csv day displacement⟩

/-! ## `calc_statistics.get_statistics`

A run file is modelled by its non-numeric identifier columns (string values)
and its numeric columns (rational values), each a named list.  The `N` files
read by `get_statistics` are the first file plus the `N - 1` files of the
`for i in range(2, N + 1)` loop, so `N = rest.length + 1`.  Standard
deviations are reals wrapped in `Option` (`none` is a float `NaN`). -/

/-- The numeric part of a dataframe: named columns of rationals. -/
abbrev NumTable := List (String × List ℚ)

/-- One simulation-run CSV file, split by dtype as `select_dtypes` does. -/
structure RunFile where
  idCols : List (String × List String)
  numCols : NumTable
deriving DecidableEq

/-- `sum_df += df[numeric_cols]`: elementwise addition of two numeric tables,
keeping the accumulator's column names. -/
def addTable (a b : NumTable) : NumTable :=
  List.zipWith (fun c d => (c.1, List.zipWith (· + ·) c.2 d.2)) a b

/-- `df[numeric_cols].pow(2)`: elementwise square. -/
def squareTable (t : NumTable) : NumTable :=
  t.map fun c => (c.1, c.2.map fun x => x * x)

/-- The combined result frame, in the column order of the final `pd.concat`:
identifier columns, then mean columns, then std columns. -/
structure StatResult where
  idCols : List (String × List String)
  meanCols : NumTable
  stdCols : List (String × List (Option ℝ))

/-- `get_statistics` over `N = rest.length + 1` files: accumulate elementwise
sums and sums of squares, derive mean and clipped standard deviation, round
both, rename the std columns, and reassemble with the first file's identifier
columns. -/
noncomputable def get_statistics (first : RunFile) (rest : List RunFile)
    (decimal_places : ℕ := 2) : StatResult :=
  let N : ℚ := ((rest.length + 1 : ℕ) : ℚ)
  let sums :=
    rest.foldl
      (fun p f => (addTable p.1 f.numCols, addTable p.2 (squareTable f.numCols)))
      (first.numCols, squareTable first.numCols)
  let mean_df : NumTable := sums.1.map fun c => (c.1, c.2.map fun x => x / N)
  let var_df : NumTable :=
    List.zipWith (fun sq m => (sq.1, List.zipWith (fun s mu => s / N - mu * mu) sq.2 m.2))
      sums.2 mean_df
  let std_df : List (String × List (Option ℝ)) :=
    var_df.map fun c => (c.1, c.2.map fun v => fsqrt (max 0 v))
  let mean_rounded := mean_df.map fun c => (c.1, c.2.map (roundQ decimal_places))
  let std_rounded := std_df.map fun c => (c.1, c.2.map (Option.map (roundR decimal_places)))
  let std_named := std_rounded.map fun c => (c.1 ++ " (std)", c.2)
  ⟨first.idCols, mean_rounded, std_named⟩

/-- The list of column lengths of a numeric table; two tables have the same
shape when these agree. -/
def colShape (t : NumTable) : List ℕ :=
  t.map fun c => c.2.length

/-- Entry of numeric table `t` in column `j`, row `k`. -/
def colEntry (t : NumTable) (j k : ℕ) : ℚ :=
  ((t.getD j ("", [])).2).getD k 0

/-- Entry of an std table in column `j`, row `k`. -/
def stdColEntry (t : List (String × List (Option ℝ))) (j k : ℕ) : Option ℝ :=
  ((t.getD j ("", [])).2).getD k none

/-- The accumulated `sum_df` after the read loop. -/
def sumTable (first : RunFile) (rest : List RunFile) : NumTable :=
  rest.foldl (fun t f => addTable t f.numCols) first.numCols

/-- The accumulated `sq_sum_df` after the read loop. -/
def sqSumTable (first : RunFile) (rest : List RunFile) : NumTable :=
  rest.foldl (fun t f => addTable t (squareTable f.numCols)) (squareTable first.numCols)

/-- `mean_df = sum_df / N` (before rounding). -/
def meanTable (first : RunFile) (rest : List RunFile) : NumTable :=
  (sumTable first rest).map fun c =>
    (c.1, c.2.map fun x => x / ((rest.length + 1 : ℕ) : ℚ))

/-- `var_df = sq_sum_df / N - mean_df ** 2`. -/
def varTable (first : RunFile) (rest : List RunFile) : NumTable :=
  List.zipWith
    (fun sq m =>
      (sq.1, List.zipWith (fun s mu => s / ((rest.length + 1 : ℕ) : ℚ) - mu * mu) sq.2 m.2))
    (sqSumTable first rest) (meanTable first rest)

/-! ## General helper lemmas -/

theorem getD_of_lt {α : Type} (l : List α) (d : α) (i : ℕ) (h : i < l.length) :
    l.getD i d = l[i] := by
  simp [List.getD_eq_getElem?_getD, List.getElem?_eq_getElem h]

theorem lookup_isSome_eq_contains (l : List (String × ℚ × ℚ)) (a : String) :
    (l.lookup a).isSome = (l.map Prod.fst).contains a := by
  induction l with
  | nil => rfl
  | cons p t ih =>
    cases h : a == p.1 <;> simp [List.lookup, h, ih, List.contains_cons]

/-! ## Claim C8: edge construction keeps exactly the edges whose endpoints
both resolve in the registry -/

/-- C8: `create_edges_gdf` includes a line for an edge if and only if both of
its endpoint location names exist in the registry dictionary: the output is
exactly the map, over the edges whose two endpoint names are keys of
`location_dict`, of the pair of looked-up coordinates.  An edge referencing an
absent location is silently dropped, and the function is total (it never
raises). -/
theorem claim_C8 (location_dict : List (String × ℚ × ℚ))
    (edges_df : List (String × String)) :
    create_edges_gdf location_dict edges_df =
      (edges_df.filter fun row =>
          (location_dict.map Prod.fst).contains row.1 &&
          (location_dict.map Prod.fst).contains row.2).map
        fun row =>
          ((location_dict.lookup row.1).getD (0, 0),
           (location_dict.lookup row.2).getD (0, 0)) := by
  induction edges_df with
  | nil => rfl
  | cons row t ih =>
    have c1 := lookup_isSome_eq_contains location_dict row.1
    have c2 := lookup_isSome_eq_contains location_dict row.2
    rw [create_edges_gdf, List.filterMap_cons, List.filter_cons]
    rw [create_edges_gdf] at ih
    cases h1 : location_dict.lookup row.1 <;> cases h2 : location_dict.lookup row.2 <;>
      simp_all

/-! ## Claim C9: download-task generation is the cartesian product over the
inclusive date range -/

theorem dateRange_eq_nil {start_date end_date : ℤ} (h : end_date < start_date) :
    dateRange start_date end_date = [] := by
  have : (end_date + 1 - start_date).toNat = 0 := by omega
  simp [dateRange, this]

theorem dateRange_eq_cons {start_date end_date : ℤ} (h : start_date ≤ end_date) :
    dateRange start_date end_date = start_date :: dateRange (start_date + 1) end_date := by
  have hn : (end_date + 1 - start_date).toNat = (end_date + 1 - (start_date + 1)).toNat + 1 := by
    omega
  rw [dateRange, hn, List.range_succ_eq_map, List.map_cons, List.map_map, dateRange]
  congr 1
  · simp
  · refine List.map_congr_left fun i _ => ?_
    simp only [Function.comp_apply]
    push_cast
    ring

/-- C9: `generate_download_tasks` returns exactly one `(image_url, filename)`
task per `(date, page, url_format)` triple of the cartesian product of the
inclusive date range with the pages and the URL templates — the task list is
the flattened cartesian product in loop order, its length is
`(number of days) * (number of pages) * (number of templates)`, and it is
empty when `start_date > end_date`. -/
theorem claim_C9 (fmtDate : ℤ → String) (start_date end_date : ℤ)
    (pages : List ℤ) (url_formats : List String) :
    (generate_download_tasks fmtDate start_date end_date pages url_formats =
      (dateRange start_date end_date).flatMap fun d =>
        pages.flatMap fun p => url_formats.map fun u => downloadTask fmtDate d p u)
    ∧ (generate_download_tasks fmtDate start_date end_date pages url_formats).length =
        (end_date + 1 - start_date).toNat * pages.length * url_formats.length
    ∧ (end_date < start_date →
        generate_download_tasks fmtDate start_date end_date pages url_formats = []) := by
  have main : ∀ (n : ℕ) (s : ℤ), (end_date + 1 - s).toNat = n →
      generate_download_tasks fmtDate s end_date pages url_formats =
        (dateRange s end_date).flatMap fun d =>
          pages.flatMap fun p => url_formats.map fun u => downloadTask fmtDate d p u := by
    intro n
    induction n with
    | zero =>
      intro s hs
      have hlt : end_date < s := by omega
      rw [generate_download_tasks, if_neg (by omega), dateRange_eq_nil hlt]
      simp
    | succ m ih =>
      intro s hs
      have hle : s ≤ end_date := by omega
      rw [generate_download_tasks, if_pos hle, dateRange_eq_cons hle,
        List.flatMap_cons, ih (s + 1) (by omega)]
  have hmain := main (end_date + 1 - start_date).toNat start_date rfl
  refine ⟨hmain, ?_, fun h => ?_⟩
  · rw [hmain, List.length_flatMap]
    have hlen : ∀ d : ℤ,
        (pages.flatMap fun p => url_formats.map fun u => downloadTask fmtDate d p u).length =
          pages.length * url_formats.length := by
      intro d
      rw [List.length_flatMap]
      simp only [Function.comp_def, List.length_map]
      rw [List.map_const', List.sum_replicate, smul_eq_mul]
    calc ((dateRange start_date end_date).map fun d =>
            (pages.flatMap fun p => url_formats.map fun u => downloadTask fmtDate d p u).length).sum
        = ((dateRange start_date end_date).map fun _ => pages.length * url_formats.length).sum := by
          refine congrArg _ (List.map_congr_left fun d _ => hlen d)
      _ = (dateRange start_date end_date).length * (pages.length * url_formats.length) := by
          rw [List.map_const', List.sum_replicate, smul_eq_mul]
      _ = (end_date + 1 - start_date).toNat * pages.length * url_formats.length := by
          rw [dateRange, List.length_map, List.length_range, Nat.mul_assoc]
  · rw [hmain, dateRange_eq_nil h]
    rfl

/-- Witness for C9 at a concrete input with `start_date > end_date`. -/
theorem claim_C9_w :
    generate_download_tasks (fun d => toString d) 5 3 [1, 2] ["u"] = [] :=
  (claim_C9 (fun d => toString d) 5 3 [1, 2] ["u"]).2.2 (by decide)

/-! ## Claim C2: per-location flood-level adjustment -/

theorem getD_replicate {α : Type} (n k : ℕ) (a : α) :
    (List.replicate n a).getD k a = a := by
  induction n generalizing k with
  | zero => simp
  | succ m ih => cases k <;> simp [List.replicate_succ, ih]

theorem floodEntryAt_eq (locations_list : List String) (df : List (String × ℤ))
    (j k : ℕ) (hj : j < locations_list.length) :
    floodEntryAt (create_flood_level_csv locations_list df) j k =
      (floodColumn (df.map Prod.snd) df.length locations_list[j]).getD k 0 := by
  have h1 : (create_flood_level_csv locations_list df).cols =
      locations_list.map fun loc => (loc, floodColumn (df.map Prod.snd) df.length loc) := by
    simp [create_flood_level_csv]
  rw [floodEntryAt, h1]
  rw [getD_of_lt _ ("", []) j (by simpa using hj)]
  simp

/-- C2: in the table produced by `create_flood_level_csv`, for every day with
base classification value `v` and every registry location, a location whose
lowercased name contains "temple" gets `0`; one containing "camp" (and not
"temple") gets `max 0 (v - 2)`; one containing "town" (and neither of the
previous) gets `max 0 (v - 1)`; and every other location gets `v`
unchanged. -/
theorem claim_C2 (locations_list : List String) (df : List (String × ℤ)) (j k : ℕ)
    (hj : j < locations_list.length) (hk : k < df.length) :
    (strContains (pyLower (locations_list.getD j "")) "temple" = true →
        floodEntryAt (create_flood_level_csv locations_list df) j k = 0)
    ∧ (strContains (pyLower (locations_list.getD j "")) "temple" = false →
       strContains (pyLower (locations_list.getD j "")) "camp" = true →
        floodEntryAt (create_flood_level_csv locations_list df) j k =
          max 0 ((df.getD k ("", 0)).2 - 2))
    ∧ (strContains (pyLower (locations_list.getD j "")) "temple" = false →
       strContains (pyLower (locations_list.getD j "")) "camp" = false →
       strContains (pyLower (locations_list.getD j "")) "town" = true →
        floodEntryAt (create_flood_level_csv locations_list df) j k =
          max 0 ((df.getD k ("", 0)).2 - 1))
    ∧ (strContains (pyLower (locations_list.getD j "")) "temple" = false →
       strContains (pyLower (locations_list.getD j "")) "camp" = false →
       strContains (pyLower (locations_list.getD j "")) "town" = false →
        floodEntryAt (create_flood_level_csv locations_list df) j k =
          (df.getD k ("", 0)).2) := by
  rw [getD_of_lt _ _ _ hj, getD_of_lt _ _ _ hk,
    floodEntryAt_eq locations_list df j k hj]
  have hmap : ∀ g : ℤ → ℤ, ((df.map Prod.snd).map g).getD k 0 = g (df[k]).2 := by
    intro g
    rw [getD_of_lt _ _ _ (by simpa using hk)]
    simp
  have hid : (df.map Prod.snd).getD k 0 = (df[k]).2 := by
    rw [getD_of_lt _ _ _ (by simpa using hk)]
    simp
  refine ⟨fun h1 => ?_, fun h1 h2 => ?_, fun h1 h2 h3 => ?_, fun h1 h2 h3 => ?_⟩
  · simp only [floodColumn, h1, if_true]
    exact getD_replicate _ _ _
  · simp only [floodColumn, h1, h2, Bool.false_eq_true, if_false, if_true]
    exact hmap _
  · simp only [floodColumn, h1, h2, h3, Bool.false_eq_true, if_false, if_true]
    exact hmap _
  · simp only [floodColumn, h1, h2, h3, Bool.false_eq_true, if_false]
    exact hid

/-- Witness for C2: a camp location on a day with classification 3 gets
`max 0 (3 - 2) = 1`. -/
theorem claim_C2_w :
    strContains (pyLower ((["Camp_1"].getD 0 ""))) "temple" = false ∧
    floodEntryAt (create_flood_level_csv ["Camp_1"] [("2024-09-08", 3)]) 0 0 =
      max 0 (((([("2024-09-08", (3 : ℤ))]).getD 0 ("", 0)).2) - 2) :=
  ⟨by decide,
    (claim_C2 ["Camp_1"] [("2024-09-08", 3)] 0 0 (by decide) (by decide)).2.1
      (by decide) (by decide)⟩

/-! ## Claims C7, C10, C6: the source-data generator -/

theorem int_trunc_of_nonneg {q : ℚ} (h : 0 ≤ q) : int_trunc q = ⌊q⌋ :=
  if_pos h

theorem ccfl_error_camp (locations_list : List String) (displacement : ℤ)
    (fdc : ℚ) (population : ℤ)
    (h : (locations_list.filter fun l => strContains (pyLower l) "camp") = []) :
    _create_camp_and_floodzone_locations locations_list displacement fdc population =
      .error .zeroDivision := by
  simp [_create_camp_and_floodzone_locations, h]

theorem ccfl_error_temple (locations_list : List String) (displacement : ℤ)
    (fdc : ℚ) (population : ℤ)
    (h : (locations_list.filter fun l => strContains (pyLower l) "temple") = []) :
    _create_camp_and_floodzone_locations locations_list displacement fdc population =
      .error .zeroDivision := by
  simp [_create_camp_and_floodzone_locations, h]

theorem ccfl_error_floodzone (locations_list : List String) (displacement : ℤ)
    (fdc : ℚ) (population : ℤ)
    (h : (locations_list.filter fun l => strContains (pyLower l) "flood_zone") = []) :
    _create_camp_and_floodzone_locations locations_list displacement fdc population =
      .error .zeroDivision := by
  simp [_create_camp_and_floodzone_locations, h]

/-- C7: with zero camp locations in the registry (or zero temple, or zero
flood-zone locations), `create_source_data_files` fails with the unhandled
division-by-zero error; there is no recovery or fallback. -/
theorem claim_C7 (locations_list : List String) (population displacement : ℤ)
    (fraction_displaced_camp fraction_stays_in_camp : ℚ)
    (flood_displacement : Bool) (day : ℕ) :
    ((∀ l ∈ locations_list, strContains (pyLower l) "camp" = false) →
      create_source_data_files locations_list population displacement
        fraction_displaced_camp fraction_stays_in_camp flood_displacement day =
        .error .zeroDivision)
    ∧ ((∀ l ∈ locations_list, strContains (pyLower l) "temple" = false) →
      create_source_data_files locations_list population displacement
        fraction_displaced_camp fraction_stays_in_camp flood_displacement day =
        .error .zeroDivision)
    ∧ ((∀ l ∈ locations_list, strContains (pyLower l) "flood_zone" = false) →
      create_source_data_files locations_list population displacement
        fraction_displaced_camp fraction_stays_in_camp flood_displacement day =
        .error .zeroDivision) := by
  refine ⟨fun h => ?_, fun h => ?_, fun h => ?_⟩
  · have herr := ccfl_error_camp locations_list displacement fraction_displaced_camp
      population (List.filter_eq_nil_iff.mpr (by simpa using h))
    simp [create_source_data_files, herr]
  · have herr := ccfl_error_temple locations_list displacement fraction_displaced_camp
      population (List.filter_eq_nil_iff.mpr (by simpa using h))
    simp [create_source_data_files, herr]
  · have herr := ccfl_error_floodzone locations_list displacement fraction_displaced_camp
      population (List.filter_eq_nil_iff.mpr (by simpa using h))
    simp [create_source_data_files, herr]

/-- Witness for C7: a registry with no camp locations makes the generator
fail with the division-by-zero error. -/
theorem claim_C7_w :
    create_source_data_files ["Town_A"] 100 50 (1/2) 1 false 14 =
      .error .zeroDivision :=
  (claim_C7 ["Town_A"] 100 50 (1/2) 1 false 14).1 (by decide)

theorem sourceFileFor_name (a b c : ℤ) (d : ℚ) (e : Bool) (loc : String) :
    (sourceFileFor a b c d e loc).name = loc := rfl

theorem ccfl_ok (locations_list : List String) (displacement : ℤ) (fdc : ℚ)
    (population : ℤ) (data : CampFloodzoneData)
    (h : _create_camp_and_floodzone_locations locations_list displacement fdc population =
      .ok data) :
    data.camp_locations = (locations_list.filter fun l => strContains (pyLower l) "camp")
    ∧ data.displacement_camp =
        int_trunc (((displacement : ℚ) * fdc) /
          (((locations_list.filter fun l => strContains (pyLower l) "camp").length : ℕ) : ℚ))
    ∧ (locations_list.filter fun l => strContains (pyLower l) "camp") ≠ [] := by
  simp only [_create_camp_and_floodzone_locations] at h
  split_ifs at h with h1 h2 h3
  injection h with h'
  subst h'
  refine ⟨rfl, rfl, fun hnil => h1 ?_⟩
  rw [hnil]
  rfl

theorem csdf_ok (locations_list : List String) (population displacement : ℤ)
    (fdc fsc : ℚ) (fd : Bool) (day : ℕ) (out : SourceDataOutput)
    (h : create_source_data_files locations_list population displacement fdc fsc fd day =
      .ok out) :
    ∃ data, _create_camp_and_floodzone_locations locations_list displacement fdc population =
        .ok data
      ∧ out.location_files = data.camp_locations.map
          (sourceFileFor data.displacement_camp data.displacement_temple
            data.floodzone_population fsc fd) := by
  unfold create_source_data_files at h
  cases hc : _create_camp_and_floodzone_locations locations_list displacement fdc population with
  | error e =>
    rw [hc] at h
    simp at h
  | ok data =>
    rw [hc] at h
    simp only [Except.ok.injEq] at h
    exact ⟨data, rfl, by rw [← h]; rfl⟩


/-- C10: `create_source_data_files` generates a per-location source-data file
exactly for the locations whose lowercased name contains "camp": the names of
the generated per-location files are precisely the camp-filtered registry, so
temple and flood-zone locations never receive one. -/
theorem claim_C10 (locations_list : List String) (population displacement : ℤ)
    (fdc fsc : ℚ) (fd : Bool) (day : ℕ) (out : SourceDataOutput)
    (h : create_source_data_files locations_list population displacement fdc fsc fd day =
      .ok out) :
    out.location_files.map SourceFile.name =
      locations_list.filter fun l => strContains (pyLower l) "camp" := by
  obtain ⟨data, hc, hfiles⟩ := csdf_ok _ _ _ _ _ _ _ _ h
  obtain ⟨hcamp, -, -⟩ := ccfl_ok _ _ _ _ _ hc
  rw [hfiles, hcamp, List.map_map]
  simp [Function.comp_def, sourceFileFor_name]

/-- Witness for C10 at a concrete registry: only `camp_1` gets a file. -/
theorem claim_C10_w :
    (({ location_files := [⟨"camp_1", [("2024-09-08", 0), ("2024-09-14", 50), ("2024-09-30", 50)]⟩],
        refugee_rows := [("2024-09-14", 100)] } : SourceDataOutput).location_files.map
          SourceFile.name) =
      (["camp_1", "temple_1", "flood_zone_1"].filter fun l => strContains (pyLower l) "camp") :=
  claim_C10 ["camp_1", "temple_1", "flood_zone_1"] 30 100 (1/2) 1 false 14 _
    (by with_unfolding_all rfl)

theorem sourceFileFor_rows_camp (dc dt fp : ℤ) (fsc : ℚ) (fd : Bool) (loc : String)
    (hcamp : strContains (pyLower loc) "camp" = true)
    (htemple : strContains (pyLower loc) "temple" = false)
    (hfz : strContains (pyLower loc) "flood_zone" = false) :
    (sourceFileFor dc dt fp fsc fd loc).rows =
      [("2024-09-08", 0), ("2024-09-14", dc),
       ("2024-09-30", int_trunc ((dc : ℚ) * fsc))] := by
  simp [sourceFileFor, hcamp, htemple, hfz, setDisp]

/-- C6: for total displacement `D ≥ 0`, camp fraction `f ≥ 0`, and a registry
whose camp locations are not also temple or flood-zone locations, whenever
`create_source_data_files` succeeds (so there is at least one camp location),
the second row of the Displacement column in every generated camp
source-data file equals `⌊D * f / C⌋`, `C` the number of camp locations. -/
theorem claim_C6 (locations_list : List String) (population displacement : ℤ)
    (fdc fsc : ℚ) (fd : Bool) (day : ℕ) (out : SourceDataOutput)
    (hD : 0 ≤ displacement) (hf : 0 ≤ fdc)
    (hdisj : ∀ l ∈ locations_list, strContains (pyLower l) "camp" = true →
      strContains (pyLower l) "temple" = false ∧
      strContains (pyLower l) "flood_zone" = false)
    (h : create_source_data_files locations_list population displacement fdc fsc fd day =
      .ok out) :
    ∀ file ∈ out.location_files,
      (file.rows.getD 1 ("", 0)).2 =
        ⌊((displacement : ℚ) * fdc) /
          (((locations_list.filter fun l => strContains (pyLower l) "camp").length : ℕ) : ℚ)⌋ := by
  obtain ⟨data, hc, hfiles⟩ := csdf_ok _ _ _ _ _ _ _ _ h
  obtain ⟨hcamp, hdc, hne⟩ := ccfl_ok _ _ _ _ _ hc
  intro file hfile
  rw [hfiles, hcamp, List.mem_map] at hfile
  obtain ⟨loc, hloc, rfl⟩ := hfile
  rw [List.mem_filter] at hloc
  obtain ⟨hmem, hcampl⟩ := hloc
  obtain ⟨ht, hf2⟩ := hdisj loc hmem hcampl
  rw [sourceFileFor_rows_camp data.displacement_camp data.displacement_temple
    data.floodzone_population fsc fd loc hcampl ht hf2]
  have hval : (([("2024-09-08", (0 : ℤ)), ("2024-09-14", data.displacement_camp),
      ("2024-09-30", int_trunc ((data.displacement_camp : ℚ) * fsc))].getD 1 ("", 0)).2) =
      data.displacement_camp := rfl
  rw [hval, hdc, int_trunc_of_nonneg
    (div_nonneg (mul_nonneg (by exact_mod_cast hD) hf) (Nat.cast_nonneg _))]

/-- Witness for C6: registry with two camps, displacement 101, fraction 1/2:
the `camp_1` file's second row is `⌊101 * (1/2) / 2⌋ = 25`. -/
theorem claim_C6_w :
    (((⟨"camp_1", [("2024-09-08", 0), ("2024-09-14", 25), ("2024-09-30", 25)]⟩ :
        SourceFile)).rows.getD 1 ("", 0)).2 =
      ⌊(((101 : ℤ) : ℚ) * (1/2)) /
        (((["camp_1", "camp_2", "temple_1", "flood_zone_1"].filter
            fun l => strContains (pyLower l) "camp").length : ℕ) : ℚ)⌋ :=
  claim_C6 ["camp_1", "camp_2", "temple_1", "flood_zone_1"] 10 101 (1/2) 1 false 14
    (⟨[⟨"camp_1", [("2024-09-08", 0), ("2024-09-14", 25), ("2024-09-30", 25)]⟩,
       ⟨"camp_2", [("2024-09-08", 0), ("2024-09-14", 25), ("2024-09-30", 25)]⟩],
      [("2024-09-14", 101)]⟩ : SourceDataOutput)
    (by decide) (by with_unfolding_all decide) (by decide) (by with_unfolding_all rfl)
    ⟨"camp_1", [("2024-09-08", 0), ("2024-09-14", 25), ("2024-09-30", 25)]⟩ (by decide)

/-! ## Entry and shape lemmas for the statistics aggregator -/

theorem getD_zipWith_eq (g : ℚ → ℚ → ℚ) (hg : g 0 0 = 0) (xs : List ℚ) :
    ∀ ys : List ℚ, ys.length = xs.length → ∀ k : ℕ,
      (List.zipWith g xs ys).getD k 0 = g (xs.getD k 0) (ys.getD k 0) := by
  induction xs with
  | nil =>
    intro ys h k
    rw [List.length_nil, List.length_eq_zero] at h
    subst h
    simp [hg]
  | cons x xs ih =>
    intro ys h k
    cases ys with
    | nil => simp at h
    | cons y ys =>
      cases k with
      | zero => simp
      | succ k =>
        simp only [List.zipWith_cons_cons, List.getD_cons_succ]
        exact ih ys (by simpa using h) k

theorem getD_map_zero (f : ℚ → ℚ) (hf : f 0 = 0) (xs : List ℚ) :
    ∀ k : ℕ, (xs.map f).getD k 0 = f (xs.getD k 0) := by
  induction xs with
  | nil => intro k; simp [hf]
  | cons x xs ih =>
    intro k
    cases k with
    | zero => simp
    | succ k => simpa using ih k

theorem getD_map_opt (f : ℚ → Option ℝ) (xs : List ℚ) :
    ∀ k : ℕ, k < xs.length → (xs.map f).getD k none = f (xs.getD k 0) := by
  induction xs with
  | nil => intro k hk; simp at hk
  | cons x xs ih =>
    intro k hk
    cases k with
    | zero => simp
    | succ k => simpa using ih k (by simpa using hk)

theorem getD_map_option (g : Option ℝ → Option ℝ) (hg : g none = none)
    (xs : List (Option ℝ)) : ∀ k : ℕ, (xs.map g).getD k none = g (xs.getD k none) := by
  induction xs with
  | nil => intro k; simp [hg]
  | cons x xs ih =>
    intro k
    cases k with
    | zero => simp
    | succ k => simpa using ih k

theorem colEntry_zipWithTable (g : ℚ → ℚ → ℚ) (hg : g 0 0 = 0) (a : NumTable) :
    ∀ b : NumTable, colShape b = colShape a → ∀ j k : ℕ,
      colEntry (List.zipWith (fun c d => (c.1, List.zipWith g c.2 d.2)) a b) j k =
        g (colEntry a j k) (colEntry b j k) := by
  induction a with
  | nil =>
    intro b h j k
    cases b with
    | nil => simp [colEntry, hg]
    | cons d b => simp [colShape] at h
  | cons c a ih =>
    intro b h j k
    cases b with
    | nil => simp [colShape] at h
    | cons d b =>
      simp only [colShape, List.map_cons, List.cons.injEq] at h
      cases j with
      | zero =>
        simp only [List.zipWith_cons_cons, colEntry, List.getD_cons_zero]
        exact getD_zipWith_eq g hg c.2 d.2 h.1 k
      | succ j =>
        simp only [List.zipWith_cons_cons, colEntry, List.getD_cons_succ]
        exact ih b h.2 j k

theorem colShape_zipWithTable (g : ℚ → ℚ → ℚ) (a : NumTable) :
    ∀ b : NumTable, colShape b = colShape a →
      colShape (List.zipWith (fun c d => (c.1, List.zipWith g c.2 d.2)) a b) =
        colShape a := by
  induction a with
  | nil => intro b h; cases b <;> simp_all [colShape]
  | cons c a ih =>
    intro b h
    cases b with
    | nil => simp [colShape] at h
    | cons d b =>
      simp only [colShape, List.map_cons, List.cons.injEq] at h
      simp only [List.zipWith_cons_cons, colShape, List.map_cons, List.cons.injEq]
      refine ⟨?_, ih b h.2⟩
      simp [List.length_zipWith, h.1]

theorem colShape_squareTable (t : NumTable) : colShape (squareTable t) = colShape t := by
  simp [colShape, squareTable, List.map_map, Function.comp_def]

theorem colEntry_squareTable (t : NumTable) :
    ∀ j k : ℕ, colEntry (squareTable t) j k = colEntry t j k * colEntry t j k := by
  induction t with
  | nil => intro j k; simp [colEntry, squareTable]
  | cons c t ih =>
    intro j k
    cases j with
    | zero =>
      simp only [squareTable, List.map_cons, colEntry, List.getD_cons_zero]
      exact getD_map_zero (fun x => x * x) (by ring) c.2 k
    | succ j =>
      simp only [squareTable, List.map_cons, colEntry, List.getD_cons_succ]
      exact ih j k

theorem length_eq_of_colShape {a b : NumTable} (h : colShape a = colShape b) :
    a.length = b.length := by
  have := congrArg List.length h
  simpa [colShape] using this

theorem colShape_getD (t : NumTable) :
    ∀ j : ℕ, (colShape t).getD j 0 = ((t.getD j ("", [])).2).length := by
  induction t with
  | nil => intro j; simp [colShape]
  | cons c t ih =>
    intro j
    cases j with
    | zero => simp [colShape]
    | succ j =>
      simp only [colShape, List.map_cons, List.getD_cons_succ]
      exact ih j

theorem foldl_pair_split {α β γ : Type} (g : α → γ → α) (h : β → γ → β) (l : List γ) :
    ∀ (a : α) (b : β),
      l.foldl (fun p c => (g p.1 c, h p.2 c)) (a, b) = (l.foldl g a, l.foldl h b) := by
  induction l with
  | nil => intro a b; rfl
  | cons c l ih => intro a b; simp only [List.foldl_cons]; exact ih _ _

theorem colShape_addTable {a b : NumTable} (h : colShape b = colShape a) :
    colShape (addTable a b) = colShape a :=
  colShape_zipWithTable (· + ·) a b h

theorem colEntry_addTable {a b : NumTable} (h : colShape b = colShape a) (j k : ℕ) :
    colEntry (addTable a b) j k = colEntry a j k + colEntry b j k :=
  colEntry_zipWithTable (· + ·) (by simp) a b h j k

theorem colShape_foldl (m : RunFile → NumTable) (rest : List RunFile) :
    ∀ acc : NumTable, (∀ f ∈ rest, colShape (m f) = colShape acc) →
      colShape (rest.foldl (fun t f => addTable t (m f)) acc) = colShape acc := by
  induction rest with
  | nil => intro acc _; rfl
  | cons f₀ rest ih =>
    intro acc h
    have h₀ : colShape (m f₀) = colShape acc := h f₀ (List.mem_cons_self _ _)
    have hacc := colShape_addTable h₀
    rw [List.foldl_cons, ih (addTable acc (m f₀))
      (fun f hf => (h f (List.mem_cons_of_mem _ hf)).trans hacc.symm), hacc]

theorem colEntry_foldl (m : RunFile → NumTable) (rest : List RunFile) :
    ∀ acc : NumTable, (∀ f ∈ rest, colShape (m f) = colShape acc) → ∀ j k : ℕ,
      colEntry (rest.foldl (fun t f => addTable t (m f)) acc) j k =
        colEntry acc j k + (rest.map fun f => colEntry (m f) j k).sum := by
  induction rest with
  | nil => intro acc _ j k; simp
  | cons f₀ rest ih =>
    intro acc h j k
    have h₀ : colShape (m f₀) = colShape acc := h f₀ (List.mem_cons_self _ _)
    have hacc := colShape_addTable h₀
    rw [List.foldl_cons, ih (addTable acc (m f₀))
      (fun f hf => (h f (List.mem_cons_of_mem _ hf)).trans hacc.symm) j k,
      colEntry_addTable h₀ j k, List.map_cons, List.sum_cons]
    ring

theorem map_fst_zipPair (g2 : List ℚ → List ℚ → List ℚ) (a : NumTable) :
    ∀ b : NumTable, b.length = a.length →
      (List.zipWith (fun c d => (c.1, g2 c.2 d.2)) a b).map Prod.fst =
        a.map Prod.fst := by
  induction a with
  | nil => intro b _; simp
  | cons c a ih =>
    intro b h
    cases b with
    | nil => simp at h
    | cons d b =>
      simp only [List.zipWith_cons_cons, List.map_cons, List.cons.injEq]
      exact ⟨trivial, ih b (by simpa using h)⟩

theorem length_zipPair (g2 : List ℚ → List ℚ → List ℚ) (a b : NumTable)
    (h : b.length = a.length) :
    (List.zipWith (fun c d => (c.1, g2 c.2 d.2)) a b).length = a.length := by
  simp [List.length_zipWith, h]

theorem map_fst_foldl (m : RunFile → NumTable) (rest : List RunFile) :
    ∀ acc : NumTable, (∀ f ∈ rest, (m f).length = acc.length) →
      (rest.foldl (fun t f => addTable t (m f)) acc).map Prod.fst = acc.map Prod.fst ∧
      (rest.foldl (fun t f => addTable t (m f)) acc).length = acc.length := by
  induction rest with
  | nil => intro acc _; exact ⟨rfl, rfl⟩
  | cons f₀ rest ih =>
    intro acc h
    have h₀ := h f₀ (List.mem_cons_self _ _)
    have hlen : (addTable acc (m f₀)).length = acc.length := length_zipPair _ _ _ h₀
    have hrec := ih (addTable acc (m f₀))
      (fun f hf => (h f (List.mem_cons_of_mem _ hf)).trans hlen.symm)
    rw [List.foldl_cons]
    exact ⟨hrec.1.trans (map_fst_zipPair _ _ _ h₀), hrec.2.trans hlen⟩

/-! ## Rounding, square-root, and table-map lemmas -/

theorem rintQ_zero : rintQ 0 = 0 := by norm_num [rintQ]

theorem roundQ_zero (d : ℕ) : roundQ d 0 = 0 := by
  simp [roundQ, rintQ_zero]

theorem rintR_zero : rintR 0 = 0 := by norm_num [rintR]

theorem roundR_zero (d : ℕ) : roundR d 0 = 0 := by
  simp [roundR, rintR_zero]

theorem rintR_nonneg {x : ℝ} (h : 0 ≤ x) : 0 ≤ rintR x := by
  have hf : 0 ≤ ⌊x⌋ := Int.floor_nonneg.mpr h
  simp only [rintR]
  split_ifs <;> omega

theorem roundR_nonneg (d : ℕ) {x : ℝ} (h : 0 ≤ x) : 0 ≤ roundR d x := by
  have h1 : (0 : ℝ) ≤ x * 10 ^ d := mul_nonneg h (by positivity)
  have h2 := rintR_nonneg h1
  exact div_nonneg (by exact_mod_cast h2) (by positivity)

theorem fsqrt_max (v : ℚ) :
    fsqrt (max 0 v) = some (Real.sqrt ((max 0 v : ℚ) : ℝ)) := by
  rw [fsqrt, if_neg (not_lt.mpr (le_max_left 0 v))]

theorem colEntry_mapTable (f : ℚ → ℚ) (hf : f 0 = 0) (t : NumTable) :
    ∀ j k : ℕ, colEntry (t.map fun c => (c.1, c.2.map f)) j k = f (colEntry t j k) := by
  induction t with
  | nil => intro j k; simp [colEntry, hf]
  | cons c t ih =>
    intro j k
    cases j with
    | zero =>
      simp only [List.map_cons, colEntry, List.getD_cons_zero]
      exact getD_map_zero f hf c.2 k
    | succ j =>
      simp only [List.map_cons, colEntry, List.getD_cons_succ]
      exact ih j k

theorem colShape_mapTable (f : ℚ → ℚ) (t : NumTable) :
    colShape (t.map fun c => (c.1, c.2.map f)) = colShape t := by
  simp [colShape, List.map_map, Function.comp_def]

theorem stdColEntry_mapQO (f : ℚ → Option ℝ) (t : NumTable) :
    ∀ j k : ℕ, j < t.length → k < ((t.getD j ("", [])).2).length →
      stdColEntry (t.map fun c => (c.1, c.2.map f)) j k = f (colEntry t j k) := by
  induction t with
  | nil => intro j k hj _; simp at hj
  | cons c t ih =>
    intro j k hj hk
    cases j with
    | zero =>
      simp only [List.map_cons, stdColEntry, colEntry, List.getD_cons_zero]
      exact getD_map_opt f c.2 k (by simpa using hk)
    | succ j =>
      simp only [List.map_cons, stdColEntry, colEntry, List.getD_cons_succ]
      exact ih j k (by simpa using hj) (by simpa [List.getD_cons_succ] using hk)

theorem stdColEntry_mapO (g : Option ℝ → Option ℝ) (hg : g none = none)
    (t : List (String × List (Option ℝ))) :
    ∀ j k : ℕ,
      stdColEntry (t.map fun c => (c.1, c.2.map g)) j k = g (stdColEntry t j k) := by
  induction t with
  | nil => intro j k; simp [stdColEntry, hg]
  | cons c t ih =>
    intro j k
    cases j with
    | zero =>
      simp only [List.map_cons, stdColEntry, List.getD_cons_zero]
      exact getD_map_option g hg c.2 k
    | succ j =>
      simp only [List.map_cons, stdColEntry, List.getD_cons_succ]
      exact ih j k

theorem stdColEntry_rename (g : String → String)
    (t : List (String × List (Option ℝ))) :
    ∀ j k : ℕ, stdColEntry (t.map fun c => (g c.1, c.2)) j k = stdColEntry t j k := by
  induction t with
  | nil => intro j k; simp [stdColEntry]
  | cons c t ih =>
    intro j k
    cases j with
    | zero => simp [stdColEntry]
    | succ j =>
      simp only [List.map_cons, stdColEntry, List.getD_cons_succ]
      exact ih j k

/-! ## Closed forms for the tables inside `get_statistics` -/

theorem stats_fold_split (first : RunFile) (rest : List RunFile) :
    rest.foldl (fun p f => (addTable p.1 f.numCols, addTable p.2 (squareTable f.numCols)))
      (first.numCols, squareTable first.numCols) =
      (sumTable first rest, sqSumTable first rest) := by
  rw [sumTable, sqSumTable]
  exact foldl_pair_split (fun t f => addTable t f.numCols)
    (fun t f => addTable t (squareTable f.numCols)) rest first.numCols
    (squareTable first.numCols)

theorem get_statistics_eq (first : RunFile) (rest : List RunFile) (d : ℕ) :
    get_statistics first rest d =
      ⟨first.idCols,
       (meanTable first rest).map fun c => (c.1, c.2.map (roundQ d)),
       (((varTable first rest).map fun c => (c.1, c.2.map fun v => fsqrt (max 0 v))).map
          fun c => (c.1, c.2.map (Option.map (roundR d)))).map
         fun c => (c.1 ++ " (std)", c.2)⟩ := by
  simp only [get_statistics, stats_fold_split, meanTable, varTable]

theorem colShape_sumTable (first : RunFile) (rest : List RunFile)
    (hshape : ∀ f ∈ rest, colShape f.numCols = colShape first.numCols) :
    colShape (sumTable first rest) = colShape first.numCols :=
  colShape_foldl _ rest first.numCols hshape

theorem colShape_sqSumTable (first : RunFile) (rest : List RunFile)
    (hshape : ∀ f ∈ rest, colShape f.numCols = colShape first.numCols) :
    colShape (sqSumTable first rest) = colShape first.numCols := by
  have h := colShape_foldl (fun f => squareTable f.numCols) rest
    (squareTable first.numCols)
    (fun f hf => by rw [colShape_squareTable, colShape_squareTable]; exact hshape f hf)
  rw [sqSumTable, h, colShape_squareTable]

theorem colShape_meanTable (first : RunFile) (rest : List RunFile)
    (hshape : ∀ f ∈ rest, colShape f.numCols = colShape first.numCols) :
    colShape (meanTable first rest) = colShape first.numCols := by
  rw [meanTable, colShape_mapTable, colShape_sumTable first rest hshape]

theorem colShape_varTable (first : RunFile) (rest : List RunFile)
    (hshape : ∀ f ∈ rest, colShape f.numCols = colShape first.numCols) :
    colShape (varTable first rest) = colShape first.numCols := by
  rw [varTable, colShape_zipWithTable _ _ _
    ((colShape_meanTable first rest hshape).trans
      (colShape_sqSumTable first rest hshape).symm),
    colShape_sqSumTable first rest hshape]

theorem sumTable_entry (first : RunFile) (rest : List RunFile)
    (hshape : ∀ f ∈ rest, colShape f.numCols = colShape first.numCols) (j k : ℕ) :
    colEntry (sumTable first rest) j k =
      ((first :: rest).map fun f => colEntry f.numCols j k).sum := by
  rw [sumTable, colEntry_foldl _ rest first.numCols hshape j k,
    List.map_cons, List.sum_cons]

theorem sqSumTable_entry (first : RunFile) (rest : List RunFile)
    (hshape : ∀ f ∈ rest, colShape f.numCols = colShape first.numCols) (j k : ℕ) :
    colEntry (sqSumTable first rest) j k =
      ((first :: rest).map fun f => colEntry f.numCols j k * colEntry f.numCols j k).sum := by
  rw [sqSumTable, colEntry_foldl (fun f => squareTable f.numCols) rest
    (squareTable first.numCols)
    (fun f hf => by rw [colShape_squareTable, colShape_squareTable]; exact hshape f hf) j k,
    List.map_cons, List.sum_cons, colEntry_squareTable]
  refine congrArg (colEntry first.numCols j k * colEntry first.numCols j k + ·) ?_
  refine congrArg List.sum (List.map_congr_left fun f _ => ?_)
  exact colEntry_squareTable f.numCols j k

theorem meanTable_entry (first : RunFile) (rest : List RunFile) (j k : ℕ) :
    colEntry (meanTable first rest) j k =
      colEntry (sumTable first rest) j k / ((rest.length + 1 : ℕ) : ℚ) := by
  rw [meanTable, colEntry_mapTable (fun x => x / ((rest.length + 1 : ℕ) : ℚ))
    (zero_div _) (sumTable first rest) j k]

theorem varTable_entry (first : RunFile) (rest : List RunFile)
    (hshape : ∀ f ∈ rest, colShape f.numCols = colShape first.numCols) (j k : ℕ) :
    colEntry (varTable first rest) j k =
      colEntry (sqSumTable first rest) j k / ((rest.length + 1 : ℕ) : ℚ) -
        colEntry (meanTable first rest) j k * colEntry (meanTable first rest) j k := by
  rw [varTable, colEntry_zipWithTable _ (by simp) _ _
    ((colShape_meanTable first rest hshape).trans
      (colShape_sqSumTable first rest hshape).symm) j k]

theorem getD_len_map {α β : Type} (g : String × List α → String × List β)
    (hlen : ∀ c, (g c).2.length = c.2.length) (t : List (String × List α)) :
    ∀ j : ℕ, j < t.length →
      (((t.map g).getD j ("", [])).2).length = ((t.getD j ("", [])).2).length := by
  induction t with
  | nil => intro j hj; simp at hj
  | cons c t ih =>
    intro j hj
    cases j with
    | zero => simp [hlen]
    | succ j => simpa using ih j (by simpa using hj)

theorem get_statistics_mean_entry (first : RunFile) (rest : List RunFile) (d j k : ℕ)
    (hshape : ∀ f ∈ rest, colShape f.numCols = colShape first.numCols) :
    colEntry (get_statistics first rest d).meanCols j k =
      roundQ d ((((first :: rest).map fun f => colEntry f.numCols j k).sum) /
        ((rest.length + 1 : ℕ) : ℚ)) := by
  simp only [get_statistics_eq]
  rw [colEntry_mapTable (roundQ d) (roundQ_zero d) (meanTable first rest) j k,
    meanTable_entry, sumTable_entry first rest hshape]

theorem get_statistics_std_entry (first : RunFile) (rest : List RunFile) (d j k : ℕ)
    (hshape : ∀ f ∈ rest, colShape f.numCols = colShape first.numCols)
    (hj : j < first.numCols.length)
    (hk : k < ((first.numCols.getD j ("", [])).2).length) :
    stdColEntry (get_statistics first rest d).stdCols j k =
      some (roundR d (Real.sqrt ((max 0
        ((((first :: rest).map fun f => colEntry f.numCols j k * colEntry f.numCols j k).sum) /
            ((rest.length + 1 : ℕ) : ℚ) -
          (((first :: rest).map fun f => colEntry f.numCols j k).sum /
              ((rest.length + 1 : ℕ) : ℚ)) *
          (((first :: rest).map fun f => colEntry f.numCols j k).sum /
              ((rest.length + 1 : ℕ) : ℚ))) : ℚ) : ℝ))) := by
  have hvshape := colShape_varTable first rest hshape
  have hj' : j < (varTable first rest).length := by
    rw [length_eq_of_colShape hvshape]; exact hj
  have hk' : k < (((varTable first rest).getD j ("", [])).2).length := by
    have h1 := colShape_getD (varTable first rest) j
    have h2 := colShape_getD first.numCols j
    rw [hvshape, h2] at h1
    rw [← h1]
    exact hk
  simp only [get_statistics_eq]
  rw [stdColEntry_rename (fun s => s ++ " (std)"),
    stdColEntry_mapO (Option.map (roundR d)) rfl,
    stdColEntry_mapQO (fun v => fsqrt (max 0 v)) (varTable first rest) j k hj' hk',
    varTable_entry first rest hshape j k, meanTable_entry,
    sumTable_entry first rest hshape, sqSumTable_entry first rest hshape, fsqrt_max]
  rfl

/-- C1: for every first file, further files `rest` of the same column shapes
(so `N = rest.length + 1 ≥ 1` files in all), rounding precision, and in-bounds
entry position, `get_statistics` produces
`mean = round(sum / N)` and `std = round(sqrt(max 0 (sum_sq / N - mean²)))`,
the sums taken elementwise over the `N` files and the unrounded mean used
inside the variance. -/
theorem claim_C1 (first : RunFile) (rest : List RunFile) (d j k : ℕ)
    (hshape : ∀ f ∈ rest, colShape f.numCols = colShape first.numCols)
    (hj : j < first.numCols.length)
    (hk : k < ((first.numCols.getD j ("", [])).2).length) :
    colEntry (get_statistics first rest d).meanCols j k =
      roundQ d ((((first :: rest).map fun f => colEntry f.numCols j k).sum) /
        ((rest.length + 1 : ℕ) : ℚ))
    ∧ stdColEntry (get_statistics first rest d).stdCols j k =
      some (roundR d (Real.sqrt ((max 0
        ((((first :: rest).map fun f => colEntry f.numCols j k * colEntry f.numCols j k).sum) /
            ((rest.length + 1 : ℕ) : ℚ) -
          (((first :: rest).map fun f => colEntry f.numCols j k).sum /
              ((rest.length + 1 : ℕ) : ℚ)) *
          (((first :: rest).map fun f => colEntry f.numCols j k).sum /
              ((rest.length + 1 : ℕ) : ℚ))) : ℚ) : ℝ))) :=
  ⟨get_statistics_mean_entry first rest d j k hshape,
   get_statistics_std_entry first rest d j k hshape hj hk⟩

/-- Witness for C1 with two one-row files holding 1 and 3: the mean entry is
`round((1 + 3) / 2)` and the std entry is
`round(sqrt(max 0 ((1² + 3²) / 2 - 2²)))`. -/
theorem claim_C1_w :
    colEntry (get_statistics ⟨[("Date", ["a"])], [("x", [1])]⟩
        [⟨[("Date", ["a"])], [("x", [3])]⟩] 2).meanCols 0 0 =
      roundQ 2 (((((⟨[("Date", ["a"])], [("x", [1])]⟩ : RunFile) ::
          [⟨[("Date", ["a"])], [("x", [3])]⟩]).map
            fun f => colEntry f.numCols 0 0).sum) /
        ((([⟨[("Date", ["a"])], [("x", [3])]⟩] : List RunFile).length + 1 : ℕ) : ℚ))
    ∧ stdColEntry (get_statistics ⟨[("Date", ["a"])], [("x", [1])]⟩
        [⟨[("Date", ["a"])], [("x", [3])]⟩] 2).stdCols 0 0 =
      some (roundR 2 (Real.sqrt ((max 0
        (((((⟨[("Date", ["a"])], [("x", [1])]⟩ : RunFile) ::
            [⟨[("Date", ["a"])], [("x", [3])]⟩]).map
              fun f => colEntry f.numCols 0 0 * colEntry f.numCols 0 0).sum) /
            ((([⟨[("Date", ["a"])], [("x", [3])]⟩] : List RunFile).length + 1 : ℕ) : ℚ) -
          ((((⟨[("Date", ["a"])], [("x", [1])]⟩ : RunFile) ::
              [⟨[("Date", ["a"])], [("x", [3])]⟩]).map
                fun f => colEntry f.numCols 0 0).sum /
              ((([⟨[("Date", ["a"])], [("x", [3])]⟩] : List RunFile).length + 1 : ℕ) : ℚ)) *
          ((((⟨[("Date", ["a"])], [("x", [1])]⟩ : RunFile) ::
              [⟨[("Date", ["a"])], [("x", [3])]⟩]).map
                fun f => colEntry f.numCols 0 0).sum /
              ((([⟨[("Date", ["a"])], [("x", [3])]⟩] : List RunFile).length + 1 : ℕ) : ℚ))) : ℚ) : ℝ))) :=
  claim_C1 ⟨[("Date", ["a"])], [("x", [1])]⟩ [⟨[("Date", ["a"])], [("x", [3])]⟩] 2 0 0
    (by decide) (by decide) (by decide)

/-- C3: every standard-deviation entry of a `get_statistics` result is `some`
non-negative real — never the float `NaN` (`none`) — because the variance is
clamped at 0 before the square root. -/
theorem claim_C3 (first : RunFile) (rest : List RunFile) (d j k : ℕ)
    (hj : j < (get_statistics first rest d).stdCols.length)
    (hk : k < (((get_statistics first rest d).stdCols.getD j ("", [])).2).length) :
    ∃ r : ℝ, stdColEntry (get_statistics first rest d).stdCols j k = some r ∧ 0 ≤ r := by
  simp only [get_statistics_eq, List.length_map] at hj
  simp only [get_statistics_eq] at hk ⊢
  have hb3 : j < ((varTable first rest).map
      fun c => (c.1, c.2.map fun v => fsqrt (max 0 v))).length := by simpa using hj
  have hb2 : j < (((varTable first rest).map
      fun c => (c.1, c.2.map fun v => fsqrt (max 0 v))).map
        fun c => (c.1, c.2.map (Option.map (roundR d)))).length := by simpa using hj
  rw [getD_len_map (fun c => (c.1 ++ " (std)", c.2)) (fun c => rfl) _ j hb2] at hk
  rw [getD_len_map (fun c => (c.1, c.2.map (Option.map (roundR d))))
    (fun c => by simp) _ j hb3] at hk
  rw [getD_len_map (fun c => (c.1, c.2.map fun v => fsqrt (max 0 v)))
    (fun c => by simp) _ j hj] at hk
  rw [stdColEntry_rename (fun s => s ++ " (std)"),
    stdColEntry_mapO (Option.map (roundR d)) rfl,
    stdColEntry_mapQO (fun v => fsqrt (max 0 v)) (varTable first rest) j k hj hk,
    fsqrt_max]
  exact ⟨roundR d (Real.sqrt ((max 0 (colEntry (varTable first rest) j k) : ℚ) : ℝ)),
    rfl, roundR_nonneg d (Real.sqrt_nonneg _)⟩

/-- Witness for C3: the single std entry of a one-file aggregation is `some`
of a non-negative real. -/
theorem claim_C3_w :
    ∃ r : ℝ, stdColEntry (get_statistics ⟨[("Date", ["a"])], [("x", [1])]⟩ [] 2).stdCols 0 0 =
      some r ∧ 0 ≤ r :=
  claim_C3 ⟨[("Date", ["a"])], [("x", [1])]⟩ [] 2 0 0
    (by simp [get_statistics_eq, varTable, sqSumTable, meanTable, sumTable, squareTable])
    (by simp [get_statistics_eq, varTable, sqSumTable, meanTable, sumTable, squareTable])

/-- C4: the aggregated frame keeps the first file's identifier columns
unchanged (same names, same values, same row order — never re-sorted or
joined), followed by one mean column per numeric column under the original
name, followed by one std column per numeric column named with the
" (std)" suffix. -/
theorem claim_C4 (first : RunFile) (rest : List RunFile) (d : ℕ)
    (hlen : ∀ f ∈ rest, f.numCols.length = first.numCols.length) :
    (get_statistics first rest d).idCols = first.idCols
    ∧ (get_statistics first rest d).meanCols.map Prod.fst = first.numCols.map Prod.fst
    ∧ (get_statistics first rest d).stdCols.map Prod.fst =
        first.numCols.map fun c => c.1 ++ " (std)" := by
  have hsum := map_fst_foldl (fun f => f.numCols) rest first.numCols hlen
  have hsq := map_fst_foldl (fun f => squareTable f.numCols) rest (squareTable first.numCols)
    (fun f hf => by simp [squareTable, List.length_map, hlen f hf])
  have hsqn : (squareTable first.numCols).map Prod.fst = first.numCols.map Prod.fst := by
    simp [squareTable, List.map_map, Function.comp_def]
  have hmean_names : (meanTable first rest).map Prod.fst = first.numCols.map Prod.fst := by
    rw [meanTable, List.map_map]
    exact hsum.1
  have hmean_len : (meanTable first rest).length = first.numCols.length := by
    rw [meanTable, List.length_map]
    exact hsum.2
  have hsq_len : (sqSumTable first rest).length = first.numCols.length := by
    rw [sqSumTable, hsq.2, squareTable, List.length_map]
  have hvar_names : (varTable first rest).map Prod.fst = first.numCols.map Prod.fst := by
    rw [varTable, map_fst_zipPair _ _ _ (hmean_len.trans hsq_len.symm)]
    rw [sqSumTable, hsq.1]
    exact hsqn
  refine ⟨?_, ?_, ?_⟩
  · simp [get_statistics_eq]
  · simp only [get_statistics_eq]
    rw [List.map_map]
    rw [show (Prod.fst ∘ fun c : String × List ℚ => (c.1, c.2.map (roundQ d))) = Prod.fst
      from rfl]
    exact hmean_names
  · simp only [get_statistics_eq]
    calc ((((varTable first rest).map fun c => (c.1, c.2.map fun v => fsqrt (max 0 v))).map
            fun c => (c.1, c.2.map (Option.map (roundR d)))).map
          fun c => (c.1 ++ " (std)", c.2)).map Prod.fst
        = ((varTable first rest).map Prod.fst).map fun s => s ++ " (std)" := by
          simp [List.map_map, Function.comp_def]
      _ = (first.numCols.map Prod.fst).map fun s => s ++ " (std)" := by rw [hvar_names]
      _ = first.numCols.map fun c => c.1 ++ " (std)" := by
          simp [List.map_map, Function.comp_def]

/-- Witness for C4 on two concrete two-column files. -/
theorem claim_C4_w :
    (get_statistics ⟨[("Date", ["a"])], [("x", [1]), ("y", [2])]⟩
        [⟨[("Date", ["a"])], [("x", [3]), ("y", [4])]⟩] 2).idCols =
      ([("Date", ["a"])] : List (String × List String))
    ∧ (get_statistics ⟨[("Date", ["a"])], [("x", [1]), ("y", [2])]⟩
        [⟨[("Date", ["a"])], [("x", [3]), ("y", [4])]⟩] 2).meanCols.map Prod.fst =
      ([("x", [1]), ("y", [2])] : NumTable).map Prod.fst
    ∧ (get_statistics ⟨[("Date", ["a"])], [("x", [1]), ("y", [2])]⟩
        [⟨[("Date", ["a"])], [("x", [3]), ("y", [4])]⟩] 2).stdCols.map Prod.fst =
      ([("x", [1]), ("y", [2])] : NumTable).map fun c => c.1 ++ " (std)" :=
  claim_C4 ⟨[("Date", ["a"])], [("x", [1]), ("y", [2])]⟩
    [⟨[("Date", ["a"])], [("x", [3]), ("y", [4])]⟩] 2 (by decide)

/-- C5: when the `N` aggregated files are all identical (and the numeric
columns constant), every standard-deviation entry of the result is exactly 0
after rounding at the default 2 decimal places. -/
theorem claim_C5 (first : RunFile) (rest : List RunFile) (j k : ℕ)
    (hident : ∀ f ∈ rest, f = first)
    (_hconst : ∀ c ∈ first.numCols, ∀ x ∈ c.2, ∀ y ∈ c.2, x = y)
    (hj : j < first.numCols.length)
    (hk : k < ((first.numCols.getD j ("", [])).2).length) :
    stdColEntry (get_statistics first rest 2).stdCols j k = some 0 := by
  have hshape : ∀ f ∈ rest, colShape f.numCols = colShape first.numCols :=
    fun f hf => by rw [hident f hf]
  rw [get_statistics_std_entry first rest 2 j k hshape hj hk]
  have hmem : ∀ f ∈ (first :: rest),
      colEntry f.numCols j k = colEntry first.numCols j k := by
    intro f hf
    rcases List.mem_cons.mp hf with h | h
    · rw [h]
    · rw [hident f h]
  have hN : ((rest.length + 1 : ℕ) : ℚ) ≠ 0 :=
    Nat.cast_ne_zero.mpr (Nat.succ_ne_zero _)
  have hsum : (((first :: rest).map fun f => colEntry f.numCols j k)).sum =
      ((rest.length + 1 : ℕ) : ℚ) * colEntry first.numCols j k := by
    rw [List.map_congr_left hmem, List.map_const', List.sum_replicate, nsmul_eq_mul,
      List.length_cons]
  have hmem2 : ∀ f ∈ (first :: rest),
      colEntry f.numCols j k * colEntry f.numCols j k =
        colEntry first.numCols j k * colEntry first.numCols j k := by
    intro f hf
    rw [hmem f hf]
  have hsumsq : (((first :: rest).map
      fun f => colEntry f.numCols j k * colEntry f.numCols j k)).sum =
      ((rest.length + 1 : ℕ) : ℚ) *
        (colEntry first.numCols j k * colEntry first.numCols j k) := by
    rw [List.map_congr_left hmem2, List.map_const', List.sum_replicate, nsmul_eq_mul,
      List.length_cons]
  rw [hsum, hsumsq]
  have harg : max 0 (((rest.length + 1 : ℕ) : ℚ) *
        (colEntry first.numCols j k * colEntry first.numCols j k) /
          ((rest.length + 1 : ℕ) : ℚ) -
      (((rest.length + 1 : ℕ) : ℚ) * colEntry first.numCols j k /
          ((rest.length + 1 : ℕ) : ℚ)) *
      (((rest.length + 1 : ℕ) : ℚ) * colEntry first.numCols j k /
          ((rest.length + 1 : ℕ) : ℚ))) = (0 : ℚ) := by
    rw [mul_div_cancel_left₀ _ hN, mul_div_cancel_left₀ _ hN]
    simp
  rw [harg]
  norm_num [Real.sqrt_zero, roundR_zero]

/-- Witness for C5: two identical files with the constant column `[2]` give a
std entry of exactly 0. -/
theorem claim_C5_w :
    stdColEntry (get_statistics ⟨[("Date", ["a"])], [("x", [2])]⟩
      [⟨[("Date", ["a"])], [("x", [2])]⟩] 2).stdCols 0 0 = some 0 :=
  claim_C5 ⟨[("Date", ["a"])], [("x", [2])]⟩ [⟨[("Date", ["a"])], [("x", [2])]⟩] 0 0
    (by with_unfolding_all decide) (by with_unfolding_all decide) (by decide) (by decide)
